import Mathlib

/-!
Verification development for the agent-with-context repository.

The definitions below are shallow embeddings of the program's data model
and operations:

* `AgentSpec.should_continue_tool_execution` embeds the routing function
  `LangGraphWorkflowService._should_continue_tool_execution`
  (src/app/workflow/langgraph_workflow.py), together with the loop
  structure of the compiled graph (`tool_execution` increments
  `iteration_count` and conditionally loops back from `reasoning`).
* The durable-store model embeds `MessageController.add_message` /
  `get_messages_by_session` (src/app/db/controllers/message_controller.py)
  and the write-through / read-fallback protocol of
  `RedisService` (src/app/services/redis_service.py).
* The context model embeds the manual similarity path of
  `ContextController.search_context_similarity`
  (src/app/db/controllers/context_controller.py) — the `HAS_PGVECTOR`
  flag is False because `sqlalchemy.dialects.postgresql` exports no
  `VECTOR` symbol, so the manual path is the live code — and the
  ingestion path `create_context_embedding` / `_generate_embedding`.
* The serialization model embeds `AgentState.to_dict` / `from_dict`
  (src/app/db/models/agent_state.py).
-/

namespace AgentSpec

/-! ## String helpers: Python `str.lower()` and the `in` substring test -/

/-- Python `str.lower()`, modelled characterwise. -/
def lowerStr (s : String) : String := String.mk (s.data.map Char.toLower)

/-- Boolean test that the first list is an initial segment of the second. -/
def leadsB : List Char → List Char → Bool
  | [], _ => true
  | _ :: _, [] => false
  | a :: as, b :: bs => a == b && leadsB as bs

/-- Boolean substring occurrence test on character lists. -/
def occursB (needle : List Char) : List Char → Bool
  | [] => leadsB needle []
  | c :: rest => leadsB needle (c :: rest) || occursB needle rest

/-- Python `needle in hay` for strings: substring containment. -/
def strContains (hay needle : String) : Bool := occursB needle.data hay.data

/-! ## WorkflowState and the reasoning-step routing

`WorkflowState` keeps exactly the fields of the pydantic model
(src/app/db/models/workflow_state.py) that
`_should_continue_tool_execution` reads.  In the compiled graph the
`continue_tools` edge goes straight back to `tool_execution`, so
`user_message`, `selected_tools` and `previous_tool_selections` are
constant across the iterations of one turn. -/

structure WorkflowState where
  user_message : String
  reasoning : String
  selected_tools : List String
  previous_tool_selections : List (List String)
  iteration_count : Nat
  max_iterations : Nat
  deriving Repr, DecidableEq

/-- Lexicographic code-point comparison on character lists, the order
Python uses when comparing strings. -/
def charsLeB : List Char → List Char → Bool
  | [], _ => true
  | _ :: _, [] => false
  | a :: as, b :: bs =>
    if a.toNat = b.toNat then charsLeB as bs else decide (a.toNat < b.toNat)

/-- String comparison by code points, as Python's `<=` on `str`. -/
def strLe (a b : String) : Prop := charsLeB a.data b.data = true

instance : DecidableRel strLe := fun a b => by
  unfold strLe; infer_instance

/-- Python `sorted` on a list of strings. -/
def sortStrings (l : List String) : List String :=
  l.insertionSort strLe

/-- Loop detection: `state.selected_tools and state.previous_tool_selections`
followed by the scan comparing `sorted(previous_tools)` with
`sorted(state.selected_tools)` (langgraph_workflow.py lines 751-760). -/
def repeatedSelection (s : WorkflowState) : Bool :=
  !s.selected_tools.isEmpty &&
    s.previous_tool_selections.any
      (fun prev => decide (sortStrings prev = sortStrings s.selected_tools))

/-- Cue words of the conversation-history heuristic
(langgraph_workflow.py line 764). -/
def historyCueWords : List String :=
  ["name", "tell", "said", "mention", "discuss", "talk"]

/-- Conversation-history heuristic: a cue word occurs in the lowercased
user message and no tools are selected. -/
def historyCue (s : WorkflowState) : Bool :=
  historyCueWords.any (fun w => strContains (lowerStr s.user_message) w) &&
    s.selected_tools.isEmpty

/-- `_should_continue_tool_execution` (langgraph_workflow.py lines 742-776):
hard iteration cap, then repeated-tool-set detection, then the
conversation-history heuristic, then the literal reasoning-text decision
with default `continue_tools`. -/
def should_continue_tool_execution (s : WorkflowState) : String :=
  if s.max_iterations ≤ s.iteration_count then "generate_response"
  else if repeatedSelection s then "generate_response"
  else if historyCue s then "generate_response"
  else if strContains (lowerStr s.reasoning) "generate_response" then "generate_response"
  else if strContains (lowerStr s.reasoning) "continue_tools" then "continue_tools"
  else "continue_tools"

/-- The recording step of `_select_tools` (langgraph_workflow.py lines
310-315): append the selection to `previous_tool_selections` only when it
is non-empty and `len(previous_tool_selections) < iteration_count`, then
set `selected_tools`. -/
def select_tools_store (s : WorkflowState) (selected : List String) : WorkflowState :=
  let s' :=
    if !selected.isEmpty && s.previous_tool_selections.length < s.iteration_count then
      { s with previous_tool_selections := s.previous_tool_selections ++ [selected] }
    else s
  { s' with selected_tools := selected }

/-- State seen by the conditional edge at the k-th reasoning step
(0-indexed): `_execute_tools` has run k+1 times, incrementing
`iteration_count` each time (line 511), and the reasoning text available
at that step is `reas k`; nothing else read by the routing function
changes inside the loop. -/
def stateAfterExec (s : WorkflowState) (reas : Nat → String) (k : Nat) : WorkflowState :=
  { s with iteration_count := s.iteration_count + (k + 1), reasoning := reas k }

/-- Routing decision taken at the k-th reasoning step of the turn. -/
def routeAt (s : WorkflowState) (reas : Nat → String) (k : Nat) : String :=
  should_continue_tool_execution (stateAfterExec s reas k)

/-- A fresh turn with the default `max_iterations = 3`, a non-empty tool
selection and no recorded previous selections, as set up by
`_setup_workflow_state` followed by one pass of tool selection (which,
with `iteration_count = 0`, records nothing). -/
def wState3 : WorkflowState :=
  { user_message := "What is the weather in Paris?"
    reasoning := ""
    selected_tools := ["weather_tool"]
    previous_tool_selections := []
    iteration_count := 0
    max_iterations := 3 }

/-! ## Tool execution (`_execute_tools`, langgraph_workflow.py lines 530-579)

A registry entry pairs a tool name with the outcome of invoking it: a
tool is an external collaborator, so its invocation is modelled as a
predetermined result-or-exception.  The per-tool loop catches every
exception and records a structured entry instead of propagating. -/

structure ToolResult where
  tool : String
  result : Option String
  status : String
  error : Option String
  deriving Repr, DecidableEq

/-- First registry entry whose name matches, as
`next((t for t in self.tools if t.name == tool_name), None)`. -/
def lookupTool (registry : List (String × Except String String)) (name : String) :
    Option (String × Except String String) :=
  registry.find? (fun t => decide (t.1 = name))

/-- One iteration of the tool loop: a missing tool or a raising tool
produces an error record; a successful tool produces a success record. -/
def runTool (registry : List (String × Except String String)) (name : String) : ToolResult :=
  match lookupTool registry name with
  | none => ⟨name, none, "error", some ("Tool " ++ name ++ " not found")⟩
  | some (_, Except.error e) => ⟨name, none, "error", some e⟩
  | some (_, Except.ok r) => ⟨name, some r, "success", none⟩

/-- The whole `tool_execution` loop body: every selected tool is
processed, failures included. -/
def execute_tools (registry : List (String × Except String String))
    (selected : List String) : List ToolResult :=
  selected.map (runTool registry)

/-! ## Durable store: sessions and conversation messages

Embeds `MessageController.add_message` / `get_messages_by_session`
(message_controller.py lines 36-77) and the session upsert used by
`RedisService._persist_agent_state_to_db`. -/

structure DbMessage where
  session_id : String
  role : String
  content : String
  message_order : Nat
  deriving Repr, DecidableEq

/-- Rows of the message table belonging to one session, in table
(creation) order. -/
def sessionMessages (rows : List DbMessage) (sid : String) : List DbMessage :=
  rows.filter (fun m => decide (m.session_id = sid))

/-- The ascending-`message_order` retrieval relation used by
`ORDER BY message_order ASC`. -/
def byOrder (a b : DbMessage) : Prop := a.message_order ≤ b.message_order

instance : DecidableRel byOrder := fun a b => Nat.decLe a.message_order b.message_order

/-- `SELECT max(message_order) WHERE session_id = sid`, with SQL's NULL
coalesced to 0 (`result.scalar() or 0`). -/
def maxOrder (rows : List DbMessage) (sid : String) : Nat :=
  ((sessionMessages rows sid).map (fun m => m.message_order)).foldl max 0

/-- `MessageController.add_message`: insert a row whose order is
`max(existing order in session) + 1`. -/
def add_message (rows : List DbMessage) (sid role content : String) : List DbMessage :=
  rows ++ [⟨sid, role, content, maxOrder rows sid + 1⟩]

/-- `MessageController.get_messages_by_session`: the session's rows in
ascending `message_order`. -/
def get_messages_by_session (rows : List DbMessage) (sid : String) : List DbMessage :=
  (sessionMessages rows sid).insertionSort byOrder

/-- Sequential appends of a batch of (role, content) messages. -/
def addAllMessages (rows : List DbMessage) (sid : String)
    (msgs : List (String × String)) : List DbMessage :=
  msgs.foldl (fun r m => add_message r sid m.1 m.2) rows

/-- The rows produced by sequentially appending (role, content) pairs to
a session whose current maximal order is `base`: orders `base + 1`,
`base + 2`, ... -/
def newRowsFrom (sid : String) (base : Nat) : List (String × String) → List DbMessage
  | [] => []
  | m :: rest => ⟨sid, m.1, m.2, base + 1⟩ :: newRowsFrom sid (base + 1) rest

/-- Session row: `conversation_status` is nullable in the schema. -/
structure SessionRow where
  session_id : String
  conversation_status : Option String
  deriving Repr, DecidableEq

/-- The durable (relational) store. -/
structure DurableDB where
  sessions : List SessionRow
  messages : List DbMessage
  deriving Repr, DecidableEq

def getSession (db : DurableDB) (sid : String) : Option SessionRow :=
  db.sessions.find? (fun r => decide (r.session_id = sid))

/-- Create-if-missing followed by the status update, as
`_persist_agent_state_to_db` does with `create_session`/`update_session`. -/
def upsertSession (sessions : List SessionRow) (sid status : String) : List SessionRow :=
  if (sessions.find? (fun r => decide (r.session_id = sid))).isSome then
    sessions.map (fun r => if r.session_id = sid then ⟨sid, some status⟩ else r)
  else
    sessions ++ [⟨sid, some status⟩]

/-- The persistence view of `AgentState`: what the write-through touches
and the load reconstructs; messages are compared by role and content. -/
structure StateMessage where
  role : String
  content : String
  deriving Repr, DecidableEq

structure AgentStateView where
  session_id : String
  messages : List StateMessage
  status : String
  deriving Repr, DecidableEq

/-- `RedisService._persist_agent_state_to_db` (redis_service.py lines
232-264): upsert the session row, then append only the messages beyond
the previously persisted count, in order. -/
def persist_agent_state (db : DurableDB) (sid : String) (st : AgentStateView) : DurableDB :=
  let existing := get_messages_by_session db.messages sid
  let newMsgs := (st.messages.drop existing.length).map (fun m => (m.role, m.content))
  ⟨upsertSession db.sessions sid st.status, addAllMessages db.messages sid newMsgs⟩

/-- Valid values of the `AgentStatus` enum. -/
def validStatuses : List String := ["idle", "processing", "completed", "error"]

/-- `AgentStatus(session.conversation_status)` with the
None-or-invalid-to-IDLE fallback of `_load_agent_state_from_db`. -/
def statusFromRow (s : Option String) : String :=
  match s with
  | none => "idle"
  | some v => if v ∈ validStatuses then v else "idle"

/-- `RedisService._load_agent_state_from_db` (redis_service.py lines
266-303): `None` when the session row is missing (the code raises
`ValueError` there), otherwise the state rebuilt from the session row
and the messages in ascending order. -/
def load_agent_state (db : DurableDB) (sid : String) : Option AgentStateView :=
  match getSession db sid with
  | none => none
  | some sess =>
      some ⟨sid,
            (get_messages_by_session db.messages sid).map (fun m => ⟨m.role, m.content⟩),
            statusFromRow sess.conversation_status⟩

/-! ## Fast store read path (`RedisService.get_agent_state`, lines 108-162)

A cached value either deserializes to a state or is corrupt; the code
branches only on that outcome. -/

inductive CachedVal where
  | good (st : AgentStateView)
  | corrupt
  deriving Repr, DecidableEq

inductive LoadErr where
  | corruptCache
  | notFound
  deriving Repr, DecidableEq

/-- `get_agent_state`: Redis first; a corrupt cached value raises; on a
miss, reconstruct from PostgreSQL and re-cache before returning; a
missing session row is an explicit error. Returns the state together
with the cache contents after the call. -/
def get_agent_state (cache : Option CachedVal) (db : DurableDB) (sid : String) :
    Except LoadErr (AgentStateView × Option CachedVal) :=
  match cache with
  | some (CachedVal.good st) => Except.ok (st, some (CachedVal.good st))
  | some CachedVal.corrupt => Except.error LoadErr.corruptCache
  | none =>
      match load_agent_state db sid with
      | some st => Except.ok (st, some (CachedVal.good st))
      | none => Except.error LoadErr.notFound

/-! ## Context index: similarity search and ingestion

Embeds the manual-similarity branch of
`ContextController.search_context_similarity`
(context_controller.py lines 287-316) — the live branch, since
`HAS_PGVECTOR` is False — plus `_cosine_similarity` (lines 436-451),
`_generate_embedding` (lines 321-334), `create_context_embedding`
(lines 104-131), and the service-level `retrieve_context` /
`_get_embedding` (context_service.py lines 152-177, 205-212).
Python floats are modelled as real numbers.  A stored embedding is
`none` when the column is NULL or its JSON fails to parse
(`get_embedding` returns `None` in both cases). -/

structure ContextRecord where
  session_id : String
  context_key : String
  content : String
  embedding : Option (List ℝ)
  meta_data : List (String × String)

structure ContextItem where
  content : String
  metadata : List (String × String)
  relevance_score : ℝ

/-- `np.dot` on equal-length vectors. -/
noncomputable def dotProduct (a b : List ℝ) : ℝ := (List.zipWith (fun x y => x * y) a b).sum

/-- `np.linalg.norm`: the Euclidean norm. -/
noncomputable def vecNorm (a : List ℝ) : ℝ := Real.sqrt ((a.map (fun x => x * x)).sum)

/-- `_cosine_similarity`: `dot(a,b)/(||a||*||b||)`, with similarity 0
when either norm is 0. -/
noncomputable def cosine_similarity (v1 v2 : List ℝ) : ℝ :=
  if vecNorm v1 = 0 ∨ vecNorm v2 = 0 then 0
  else dotProduct v1 v2 / (vecNorm v1 * vecNorm v2)

/-- Records of one session, in `created_at` ascending (table) order. -/
def sessionRecords (records : List ContextRecord) (sid : String) : List ContextRecord :=
  records.filter (fun r => decide (r.session_id = sid))

/-- Whether a record carries a present, non-empty embedding — the
condition under which the manual similarity loop scores it
(`if context.embedding` and `if stored_embedding and len(...) > 0`). -/
def hasValidEmbedding (r : ContextRecord) : Bool :=
  match r.embedding with
  | some (_ :: _) => true
  | _ => false

/-- One pass of the manual scoring loop: a record whose embedding is
missing, unparseable or empty is skipped (`none`), the rest are scored
against the query embedding. -/
noncomputable def scoreRecord (queryEmbedding : List ℝ) (r : ContextRecord) :
    Option ContextItem :=
  match r.embedding with
  | none => none
  | some [] => none
  | some emb => some ⟨r.content, r.meta_data, cosine_similarity queryEmbedding emb⟩

/-- The manual scoring loop over the session's records. -/
noncomputable def scoredItems (records : List ContextRecord) (sid : String)
    (queryEmbedding : List ℝ) : List ContextItem :=
  (sessionRecords records sid).filterMap (scoreRecord queryEmbedding)

/-- Descending-relevance comparison used by
`sort(key=lambda x: x["relevance_score"], reverse=True)`. -/
noncomputable def byScoreDesc (a b : ContextItem) : Prop :=
  b.relevance_score ≤ a.relevance_score

noncomputable instance : DecidableRel byScoreDesc :=
  fun a b => Real.decidableLE b.relevance_score a.relevance_score

instance : IsTotal ContextItem byScoreDesc :=
  ⟨fun a b => le_total b.relevance_score a.relevance_score⟩

instance : IsTrans ContextItem byScoreDesc :=
  ⟨fun _ _ _ hab hbc => le_trans hbc hab⟩

/-- `search_context_similarity`, manual branch: score, filter by the
similarity threshold, sort by descending relevance, truncate to the
limit. -/
noncomputable def search_context_similarity (records : List ContextRecord) (sid : String)
    (queryEmbedding : List ℝ) (threshold : ℝ) (limit : Nat) : List ContextItem :=
  (((scoredItems records sid queryEmbedding).filter
      (fun it => decide (threshold ≤ it.relevance_score))).insertionSort byScoreDesc).take limit

/-- `ContextService.retrieve_context` without `query_text`: all of the
session's records in creation order up to the limit, each with default
relevance 1.0. -/
noncomputable def retrieve_context_noquery (records : List ContextRecord) (sid : String)
    (limit : Nat) : List ContextItem :=
  ((sessionRecords records sid).take limit).map (fun r => ⟨r.content, r.meta_data, 1⟩)

/-- `ContextService._get_embedding`: the embedding provider's answer, or
an all-zeros 768-vector when the provider raises.  (Used for the query
embedding; the stored-record path below regenerates strictly.) -/
noncomputable def service_get_embedding (provider : Except String (List ℝ)) : List ℝ :=
  match provider with
  | Except.ok v => v
  | Except.error _ => List.replicate 768 (0 : ℝ)

/-- `ContextController._generate_embedding`: provider failure or a
dimension mismatch raises a `ValueError` instead of producing a vector. -/
def generate_embedding (provider : Except String (List ℝ)) : Except String (List ℝ) :=
  match provider with
  | Except.error e => Except.error ("Error generating embedding: " ++ e)
  | Except.ok v =>
      if v.length ≠ 768 then
        Except.error "Error generating embedding: Embedding dimensions mismatch"
      else Except.ok v

/-- `ContextController.create_context_embedding` as invoked by the
context service (no embedding supplied by the caller): generate the
embedding from the content — propagating its failure — and insert the
record. -/
def create_context_embedding (records : List ContextRecord) (sid key content : String)
    (meta : List (String × String)) (provider : Except String (List ℝ)) :
    Except String (List ContextRecord) :=
  match generate_embedding provider with
  | Except.error e => Except.error e
  | Except.ok emb => Except.ok (records ++ [⟨sid, key, content, some emb, meta⟩])

/-! ## AgentState snapshot serialization (`to_dict` / `from_dict`,
agent_state.py lines 107-151)

The datetime codec (`isoformat` / `fromisoformat`) and the JSON-shaped
metadata and context maps are Python-library collaborators; they are
parameters of the model, with the standard library's round-trip contract
as a hypothesis where needed. -/

inductive SMessageRole where
  | user
  | assistant
  | system
  deriving Repr, DecidableEq

/-- `MessageRole.value`. -/
def SMessageRole.value : SMessageRole → String
  | SMessageRole.user => "user"
  | SMessageRole.assistant => "assistant"
  | SMessageRole.system => "system"

/-- `MessageRole(s)`: pydantic validation of the role string. -/
def roleFromString (s : String) : Option SMessageRole :=
  if s = "user" then some SMessageRole.user
  else if s = "assistant" then some SMessageRole.assistant
  else if s = "system" then some SMessageRole.system
  else none

inductive SAgentStatus where
  | idle
  | processing
  | completed
  | error
  deriving Repr, DecidableEq

/-- `AgentStatus.value`. -/
def SAgentStatus.value : SAgentStatus → String
  | SAgentStatus.idle => "idle"
  | SAgentStatus.processing => "processing"
  | SAgentStatus.completed => "completed"
  | SAgentStatus.error => "error"

/-- `AgentStatus(s)` with `from_dict`'s fallback to IDLE on an invalid
value. -/
def statusFromStringLoose (s : String) : SAgentStatus :=
  if s = "idle" then SAgentStatus.idle
  else if s = "processing" then SAgentStatus.processing
  else if s = "completed" then SAgentStatus.completed
  else if s = "error" then SAgentStatus.error
  else SAgentStatus.idle

/-- The in-memory `Message` pydantic model (role, content, timestamp,
optional metadata). -/
structure SMessage (DT Meta : Type) where
  role : SMessageRole
  content : String
  timestamp : DT
  metadata : Option Meta
  deriving DecidableEq

/-- The in-memory `AgentState` pydantic model. -/
structure SAgentState (DT Meta Ctx : Type) where
  session_id : String
  messages : List (SMessage DT Meta)
  context : Ctx
  status : SAgentStatus
  created_at : DT
  updated_at : DT
  deriving DecidableEq

/-- One message entry of the `to_dict` output. -/
structure SMessageDict (Meta : Type) where
  role : String
  content : String
  timestamp : String
  metadata : Option Meta
  deriving DecidableEq

/-- The dictionary produced by `AgentState.to_dict`. -/
structure SAgentStateDict (Meta Ctx : Type) where
  session_id : String
  messages : List (SMessageDict Meta)
  context : Ctx
  status : String
  created_at : String
  updated_at : String
  deriving DecidableEq

/-- `AgentState.to_dict`, parametrized by the datetime printer `iso`. -/
def agentState_to_dict {DT Meta Ctx : Type} (iso : DT → String)
    (s : SAgentState DT Meta Ctx) : SAgentStateDict Meta Ctx :=
  ⟨s.session_id,
   s.messages.map (fun m => ⟨m.role.value, m.content, iso m.timestamp, m.metadata⟩),
   s.context,
   s.status.value,
   iso s.created_at,
   iso s.updated_at⟩

/-- `[Message(**msg) for msg in data["messages"]]`: each entry is
validated in order; a single invalid role or timestamp fails the whole
conversion (pydantic raises). -/
def parseMessages {DT Meta : Type} (parseDT : String → Option DT) :
    List (SMessageDict Meta) → Option (List (SMessage DT Meta))
  | [] => some []
  | m :: rest => do
    let r ← roleFromString m.role
    let t ← parseDT m.timestamp
    let tail ← parseMessages parseDT rest
    pure (⟨r, m.content, t, m.metadata⟩ :: tail)

/-- `AgentState.from_dict`, parametrized by the datetime reader
`parseDT`; `none` models the pydantic validation error raised on an
invalid role or timestamp, while an invalid status falls back to IDLE. -/
def agentState_from_dict {DT Meta Ctx : Type} (parseDT : String → Option DT)
    (d : SAgentStateDict Meta Ctx) : Option (SAgentState DT Meta Ctx) := do
  let msgs ← parseMessages parseDT d.messages
  let ca ← parseDT d.created_at
  let ua ← parseDT d.updated_at
  pure ⟨d.session_id, msgs, d.context, statusFromStringLoose d.status, ca, ua⟩

example : strContains (lowerStr "Please CONTINUE_tools now") "continue_tools" = true := by decide
example : strContains (lowerStr "all done") "continue_tools" = false := by decide
example :
    should_continue_tool_execution
      { user_message := "hi", reasoning := "continue_tools", selected_tools := ["a"],
        previous_tool_selections := [], iteration_count := 3, max_iterations := 3 }
      = "generate_response" := by decide
example :
    should_continue_tool_execution
      { user_message := "hi", reasoning := "continue_tools", selected_tools := ["a"],
        previous_tool_selections := [], iteration_count := 1, max_iterations := 3 }
      = "continue_tools" := by decide
example :
    should_continue_tool_execution
      { user_message := "hi", reasoning := "continue_tools", selected_tools := ["b", "a"],
        previous_tool_selections := [["a", "b"]], iteration_count := 1, max_iterations := 3 }
      = "generate_response" := by decide
example :
    should_continue_tool_execution
      { user_message := "what did I tell you", reasoning := "", selected_tools := [],
        previous_tool_selections := [], iteration_count := 1, max_iterations := 3 }
      = "generate_response" := by decide

/-! ## Order lemmas for the string comparison -/

theorem charsLeB_total : ∀ (a b : List Char), charsLeB a b = true ∨ charsLeB b a = true
  | [], _ => Or.inl rfl
  | _ :: _, [] => Or.inr rfl
  | a :: as, b :: bs => by
    by_cases h : a.toNat = b.toNat
    · rcases charsLeB_total as bs with ih | ih
      · exact Or.inl (by simp only [charsLeB]; rw [if_pos h]; exact ih)
      · exact Or.inr (by simp only [charsLeB]; rw [if_pos h.symm]; exact ih)
    · rcases Nat.lt_or_ge a.toNat b.toNat with hlt | hge
      · refine Or.inl ?_
        simp only [charsLeB]
        rw [if_neg h]
        exact decide_eq_true hlt
      · refine Or.inr ?_
        simp only [charsLeB]
        rw [if_neg (fun hh => h hh.symm)]
        exact decide_eq_true (by omega)

theorem charsLeB_trans : ∀ (a b c : List Char),
    charsLeB a b = true → charsLeB b c = true → charsLeB a c = true
  | [], _, _, _, _ => rfl
  | _ :: _, [], _, h, _ => by simp [charsLeB] at h
  | _ :: _, _ :: _, [], _, h => by simp [charsLeB] at h
  | a :: as, b :: bs, c :: cs, h1, h2 => by
    simp only [charsLeB] at h1 h2 ⊢
    by_cases hab : a.toNat = b.toNat <;> by_cases hbc : b.toNat = c.toNat
    · rw [if_pos hab] at h1
      rw [if_pos hbc] at h2
      rw [if_pos (hab.trans hbc)]
      exact charsLeB_trans as bs cs h1 h2
    · rw [if_neg hbc] at h2
      have hlt : b.toNat < c.toNat := of_decide_eq_true h2
      rw [if_neg (by omega)]
      exact decide_eq_true (by omega)
    · rw [if_neg hab] at h1
      have hlt : a.toNat < b.toNat := of_decide_eq_true h1
      rw [if_neg (by omega)]
      exact decide_eq_true (by omega)
    · rw [if_neg hab] at h1
      rw [if_neg hbc] at h2
      have hlt1 : a.toNat < b.toNat := of_decide_eq_true h1
      have hlt2 : b.toNat < c.toNat := of_decide_eq_true h2
      rw [if_neg (by omega)]
      exact decide_eq_true (by omega)

theorem charsLeB_antisymm : ∀ (a b : List Char),
    charsLeB a b = true → charsLeB b a = true → a = b
  | [], [], _, _ => rfl
  | [], _ :: _, _, h => by simp [charsLeB] at h
  | _ :: _, [], h, _ => by simp [charsLeB] at h
  | a :: as, b :: bs, h1, h2 => by
    simp only [charsLeB] at h1 h2
    by_cases hab : a.toNat = b.toNat
    · rw [if_pos hab] at h1
      rw [if_pos hab.symm] at h2
      have hhead : a = b := Char.eq_of_val_eq (UInt32.ext hab)
      rw [hhead, charsLeB_antisymm as bs h1 h2]
    · rw [if_neg hab] at h1
      rw [if_neg (fun hh => hab hh.symm)] at h2
      have hlt1 : a.toNat < b.toNat := of_decide_eq_true h1
      have hlt2 : b.toNat < a.toNat := of_decide_eq_true h2
      omega

instance : IsTotal String strLe := ⟨fun a b => charsLeB_total a.data b.data⟩

instance : IsTrans String strLe := ⟨fun a b c => charsLeB_trans a.data b.data c.data⟩

instance : IsAntisymm String strLe :=
  ⟨fun a b h1 h2 => by
    cases a with
    | mk da =>
      cases b with
      | mk db => exact congrArg String.mk (charsLeB_antisymm da db h1 h2)⟩

/-! ## The routing function under the three safeguards -/

/-- When none of the three safeguards triggers, the routing follows the
literal reasoning text, with `continue_tools` as default. -/
theorem should_continue_of_no_safeguard (s : WorkflowState)
    (hcap : ¬ s.max_iterations ≤ s.iteration_count)
    (hrep : repeatedSelection s = false) (hcue : historyCue s = false) :
    should_continue_tool_execution s =
      if strContains (lowerStr s.reasoning) "generate_response" = true
      then "generate_response" else "continue_tools" := by
  simp only [should_continue_tool_execution, hrep, hcue, if_neg hcap, Bool.false_eq_true,
    if_false]
  by_cases hgen : strContains (lowerStr s.reasoning) "generate_response" = true
  · simp [hgen]
  · simp only [hgen, if_false]
    by_cases hcont : strContains (lowerStr s.reasoning) "continue_tools" = true <;>
      simp [hcont]

/-! ## Claim C1 -/

/-- C1: For every WorkflowState and every sequence of reasoning texts,
the reasoning-step routing reaches `generate_response` within
`max_iterations` tool-execution iterations: after the k-th execution
pass (`iteration_count` incremented to `k + 1`) the routing is forced to
`generate_response` as soon as the cap is reached; in particular a fresh
turn reaches it by step `max_iterations - 1`; and in the scenario with
`max_iterations = 3` and reasoning text always saying `continue_tools`
(and not `generate_response`), the engine performs exactly 3
tool-execution passes, forcing response generation on the 3rd reasoning
step. -/
theorem C1_termination_within_cap :
    (∀ (s : WorkflowState) (reas : Nat → String) (k : Nat),
        s.max_iterations ≤ s.iteration_count + (k + 1) →
        routeAt s reas k = "generate_response")
    ∧ (∀ (s : WorkflowState) (reas : Nat → String),
        s.iteration_count = 0 → 1 ≤ s.max_iterations →
        routeAt s reas (s.max_iterations - 1) = "generate_response")
    ∧ (∀ (reas : Nat → String),
        (∀ k, strContains (lowerStr (reas k)) "continue_tools" = true) →
        (∀ k, strContains (lowerStr (reas k)) "generate_response" = false) →
        routeAt wState3 reas 0 = "continue_tools"
          ∧ routeAt wState3 reas 1 = "continue_tools"
          ∧ routeAt wState3 reas 2 = "generate_response") := by
  have cap : ∀ (s : WorkflowState) (reas : Nat → String) (k : Nat),
      s.max_iterations ≤ s.iteration_count + (k + 1) →
      routeAt s reas k = "generate_response" := by
    intro s reas k h
    simp [routeAt, stateAfterExec, should_continue_tool_execution, h]
  refine ⟨cap, ?_, ?_⟩
  · intro s reas h0 h1
    apply cap
    omega
  · intro reas hcont hgen
    refine ⟨?_, ?_, cap wState3 reas 2 (by decide)⟩
    · have h := should_continue_of_no_safeguard (stateAfterExec wState3 reas 0)
        (by show ¬ (3 : Nat) ≤ 0 + (0 + 1); decide) rfl rfl
      rw [routeAt, h]
      simp [stateAfterExec, hgen 0]
    · have h := should_continue_of_no_safeguard (stateAfterExec wState3 reas 1)
        (by show ¬ (3 : Nat) ≤ 0 + (1 + 1); decide) rfl rfl
      rw [routeAt, h]
      simp [stateAfterExec, hgen 1]

/-- Witness for C1 at concrete inputs. -/
theorem C1_termination_within_cap_witness :
    routeAt ⟨"hi", "", ["calculator"], [], 0, 3⟩ (fun _ => "continue_tools") 2
        = "generate_response"
    ∧ routeAt wState3 (fun _ => "continue_tools") 0 = "continue_tools" :=
  ⟨C1_termination_within_cap.1 ⟨"hi", "", ["calculator"], [], 0, 3⟩
      (fun _ => "continue_tools") 2 (by decide),
   (C1_termination_within_cap.2.2 (fun _ => "continue_tools")
      (fun _ =>
        (by decide : strContains (lowerStr "continue_tools") "continue_tools" = true))
      (fun _ =>
        (by decide :
          strContains (lowerStr "continue_tools") "generate_response" = false))).1⟩

/-! ## Claim C5 -/

/-- C5: The three termination safeguards apply in priority order: the
hard iteration cap first, then repeated-tool-set detection, then the
conversation-history heuristic; only if none of the three triggers does
the literal reasoning text govern, where a text containing
`generate_response` routes to response generation, a text containing
`continue_tools` routes to tool execution, and an unrecognized text
defaults to `continue_tools`. -/
theorem C5_safeguard_priority (s : WorkflowState) :
    (s.max_iterations ≤ s.iteration_count →
      should_continue_tool_execution s = "generate_response")
    ∧ (¬ s.max_iterations ≤ s.iteration_count → repeatedSelection s = true →
      should_continue_tool_execution s = "generate_response")
    ∧ (¬ s.max_iterations ≤ s.iteration_count → repeatedSelection s = false →
      historyCue s = true →
      should_continue_tool_execution s = "generate_response")
    ∧ (¬ s.max_iterations ≤ s.iteration_count → repeatedSelection s = false →
      historyCue s = false →
      strContains (lowerStr s.reasoning) "generate_response" = true →
      should_continue_tool_execution s = "generate_response")
    ∧ (¬ s.max_iterations ≤ s.iteration_count → repeatedSelection s = false →
      historyCue s = false →
      strContains (lowerStr s.reasoning) "generate_response" = false →
      strContains (lowerStr s.reasoning) "continue_tools" = true →
      should_continue_tool_execution s = "continue_tools")
    ∧ (¬ s.max_iterations ≤ s.iteration_count → repeatedSelection s = false →
      historyCue s = false →
      strContains (lowerStr s.reasoning) "generate_response" = false →
      strContains (lowerStr s.reasoning) "continue_tools" = false →
      should_continue_tool_execution s = "continue_tools") := by
  refine ⟨?_, ?_, ?_, ?_, ?_, ?_⟩
  · intro h
    simp [should_continue_tool_execution, h]
  · intro hcap hrep
    simp [should_continue_tool_execution, hcap, hrep]
  · intro hcap hrep hcue
    simp [should_continue_tool_execution, hcap, hrep, hcue]
  · intro hcap hrep hcue hgen
    rw [should_continue_of_no_safeguard s hcap hrep hcue, if_pos hgen]
  · intro hcap hrep hcue hgen _
    rw [should_continue_of_no_safeguard s hcap hrep hcue, if_neg (by simp [hgen])]
  · intro hcap hrep hcue hgen _
    rw [should_continue_of_no_safeguard s hcap hrep hcue, if_neg (by simp [hgen])]

/-- Witness for C5 at concrete inputs: the cap branch, the
cycle-detection branch, the heuristic branch, and the ambiguous-text
default branch. -/
theorem C5_safeguard_priority_witness :
    should_continue_tool_execution ⟨"hi", "continue_tools", ["a"], [], 3, 3⟩
        = "generate_response"
    ∧ should_continue_tool_execution ⟨"hi", "continue_tools", ["b", "a"], [["a", "b"]], 1, 3⟩
        = "generate_response"
    ∧ should_continue_tool_execution ⟨"what did I tell you?", "continue_tools", [], [], 1, 3⟩
        = "generate_response"
    ∧ should_continue_tool_execution ⟨"hi", "no decision token here", ["a"], [], 1, 3⟩
        = "continue_tools" :=
  ⟨(C5_safeguard_priority _).1 (by decide),
   (C5_safeguard_priority _).2.1 (by decide) (by decide),
   (C5_safeguard_priority _).2.2.1 (by decide) (by decide) (by decide),
   (C5_safeguard_priority _).2.2.2.2.2 (by decide) (by decide) (by decide)
     (by decide) (by decide)⟩

/-! ## Claim C2 -/

/-- C2: If the selected-tool set at the current reasoning step equals,
as an order-independent set, a selection recorded for an earlier
iteration of the turn, the routing returns `generate_response`; and
`_select_tools` records a (non-empty) selection into
`previous_tool_selections` only when advancing to a new iteration,
i.e. when `len(previous_tool_selections) < iteration_count`. -/
theorem C2_cycle_detection :
    (∀ (s : WorkflowState) (prev : List String),
        prev ∈ s.previous_tool_selections →
        s.selected_tools ≠ [] →
        s.selected_tools.Nodup → prev.Nodup →
        (∀ x, x ∈ prev ↔ x ∈ s.selected_tools) →
        should_continue_tool_execution s = "generate_response")
    ∧ (∀ (s : WorkflowState) (selected : List String),
        (select_tools_store s selected).previous_tool_selections
          ≠ s.previous_tool_selections →
        selected ≠ [] ∧ s.previous_tool_selections.length < s.iteration_count) := by
  constructor
  · intro s prev hmem hne hnd1 hnd2 hiff
    by_cases hcap : s.max_iterations ≤ s.iteration_count
    · simp [should_continue_tool_execution, hcap]
    · have hperm : prev.Perm s.selected_tools :=
        (List.perm_ext_iff_of_nodup hnd2 hnd1).mpr hiff
      have hsort : sortStrings prev = sortStrings s.selected_tools :=
        List.eq_of_perm_of_sorted
          (((List.perm_insertionSort strLe prev).trans hperm).trans
            (List.perm_insertionSort strLe s.selected_tools).symm)
          (List.sorted_insertionSort strLe prev)
          (List.sorted_insertionSort strLe s.selected_tools)
      have hrep : repeatedSelection s = true := by
        unfold repeatedSelection
        rw [Bool.and_eq_true]
        constructor
        · cases h : s.selected_tools with
          | nil => exact absurd h hne
          | cons a l => simp [h]
        · exact List.any_eq_true.mpr ⟨prev, hmem, by simp [hsort]⟩
      simp [should_continue_tool_execution, hcap, hrep]
  · intro s selected h
    unfold select_tools_store at h
    by_cases hc : (!selected.isEmpty &&
        decide (s.previous_tool_selections.length < s.iteration_count)) = true
    · rw [Bool.and_eq_true] at hc
      refine ⟨?_, of_decide_eq_true hc.2⟩
      cases selected with
      | nil => simp at hc
      | cons a l => simp
    · rw [if_neg hc] at h
      exact absurd rfl h

/-- Witness for C2 at a concrete state: the current selection
`["b", "a"]` matches the recorded selection `["a", "b"]` as a set, and a
recording step that grows the history implies its guard held. -/
theorem C2_cycle_detection_witness :
    should_continue_tool_execution ⟨"hi", "continue_tools", ["b", "a"], [["a", "b"]], 1, 3⟩
        = "generate_response"
    ∧ (["ctx"] ≠ ([] : List String)
        ∧ ([[ "x" ]] : List (List String)).length < 2) :=
  ⟨C2_cycle_detection.1 ⟨"hi", "continue_tools", ["b", "a"], [["a", "b"]], 1, 3⟩
      ["a", "b"] (by decide) (by decide) (by decide) (by decide)
      (fun x => by constructor <;> (intro h; simp at h; simp [h]; tauto)),
   C2_cycle_detection.2 ⟨"hi", "continue_tools", ["b", "a"], [["x"]], 2, 3⟩ ["ctx"]
      (by decide)⟩

/-! ## Claim C6 -/

/-- C6: Tool execution is isolated: every selected tool yields exactly
one structured entry; the entry for position i depends only on the tool
at position i (so failures of other tools cannot stop it); a tool name
absent from the registry yields the `Tool ... not found` error record; a
raising tool yields an error record carrying its message; a succeeding
tool yields a success record.  The function is total, so no exception
propagates out of the phase. -/
theorem C6_tool_error_isolation :
    (∀ (registry : List (String × Except String String)) (selected : List String),
        (execute_tools registry selected).length = selected.length)
    ∧ (∀ (registry : List (String × Except String String)) (selected : List String)
        (i : Nat) (hi : i < selected.length)
        (hi' : i < (execute_tools registry selected).length),
        (execute_tools registry selected).get ⟨i, hi'⟩
          = runTool registry (selected.get ⟨i, hi⟩))
    ∧ (∀ (registry : List (String × Except String String)) (name : String),
        lookupTool registry name = none →
        runTool registry name
          = ⟨name, none, "error", some ("Tool " ++ name ++ " not found")⟩)
    ∧ (∀ (registry : List (String × Except String String)) (name impl e : String),
        lookupTool registry name = some (impl, Except.error e) →
        runTool registry name = ⟨name, none, "error", some e⟩)
    ∧ (∀ (registry : List (String × Except String String)) (name impl r : String),
        lookupTool registry name = some (impl, Except.ok r) →
        runTool registry name = ⟨name, some r, "success", none⟩) := by
  refine ⟨?_, ?_, ?_, ?_, ?_⟩
  · intro registry selected
    simp [execute_tools]
  · intro registry selected i hi hi'
    simp [execute_tools]
  · intro registry name h
    unfold runTool
    rw [h]
  · intro registry name impl e h
    unfold runTool
    rw [h]
  · intro registry name impl r h
    unfold runTool
    rw [h]

/-- Witness for C6 on a three-tool selection where the first tool
succeeds, the second is missing from the registry and the third raises. -/
theorem C6_tool_error_isolation_witness :
    (execute_tools [("calc", Except.ok "42"), ("boom", Except.error "kaboom")]
        ["calc", "missing", "boom"]).length = (["calc", "missing", "boom"] : List String).length
    ∧ runTool [("calc", Except.ok "42"), ("boom", Except.error "kaboom")] "missing"
        = ⟨"missing", none, "error", some "Tool missing not found"⟩
    ∧ runTool [("calc", Except.ok "42"), ("boom", Except.error "kaboom")] "boom"
        = ⟨"boom", none, "error", some "kaboom"⟩
    ∧ runTool [("calc", Except.ok "42"), ("boom", Except.error "kaboom")] "calc"
        = ⟨"calc", some "42", "success", none⟩ :=
  ⟨C6_tool_error_isolation.1 _ _,
   C6_tool_error_isolation.2.2.1 _ "missing" rfl,
   C6_tool_error_isolation.2.2.2.1 _ "boom" "boom" "kaboom" rfl,
   C6_tool_error_isolation.2.2.2.2 _ "calc" "calc" "42" rfl⟩

/-! ## Durable-store lemmas -/

theorem le_foldl_max : ∀ (l : List Nat) (a : Nat), a ≤ l.foldl max a
  | [], _ => le_refl _
  | b :: t, a => le_trans (le_max_left a b) (le_foldl_max t (max a b))

theorem mem_le_foldl_max : ∀ (l : List Nat) (a x : Nat), x ∈ l → x ≤ l.foldl max a
  | [], _, _, hx => absurd hx (List.not_mem_nil _)
  | b :: t, a, x, hx => by
    rcases List.mem_cons.mp hx with h | h
    · subst h
      exact le_trans (le_max_right a x) (le_foldl_max t (max a x))
    · exact mem_le_foldl_max t (max a b) x h

theorem sessionMessages_append (rows l : List DbMessage) (sid : String) :
    sessionMessages (rows ++ l) sid = sessionMessages rows sid ++ sessionMessages l sid :=
  List.filter_append rows l

theorem mem_order_le_maxOrder (rows : List DbMessage) (sid : String) (m : DbMessage)
    (hm : m ∈ sessionMessages rows sid) : m.message_order ≤ maxOrder rows sid :=
  mem_le_foldl_max _ 0 _ (List.mem_map_of_mem _ hm)

theorem maxOrder_append_own (rows : List DbMessage) (sid role content : String) (k : Nat) :
    maxOrder (rows ++ [⟨sid, role, content, k⟩]) sid = max (maxOrder rows sid) k := by
  unfold maxOrder
  rw [sessionMessages_append]
  have hone : sessionMessages [⟨sid, role, content, k⟩] sid = [⟨sid, role, content, k⟩] := by
    simp [sessionMessages]
  rw [hone, List.map_append, List.foldl_append]
  rfl

theorem addAll_eq_append (sid : String) :
    ∀ (msgs : List (String × String)) (rows : List DbMessage),
      addAllMessages rows sid msgs = rows ++ newRowsFrom sid (maxOrder rows sid) msgs
  | [], rows => by simp [addAllMessages, newRowsFrom]
  | m :: rest, rows => by
    have step : addAllMessages rows sid (m :: rest)
        = addAllMessages (add_message rows sid m.1 m.2) sid rest := rfl
    rw [step, addAll_eq_append sid rest (add_message rows sid m.1 m.2)]
    unfold add_message
    rw [maxOrder_append_own]
    have hmax : max (maxOrder rows sid) (maxOrder rows sid + 1) = maxOrder rows sid + 1 :=
      Nat.max_eq_right (Nat.le_succ _)
    rw [hmax, List.append_assoc]
    rfl

theorem newRows_sid (sid : String) :
    ∀ (msgs : List (String × String)) (base : Nat) (m : DbMessage),
      m ∈ newRowsFrom sid base msgs → m.session_id = sid
  | [], _, _, hm => absurd hm (List.not_mem_nil _)
  | p :: rest, base, m, hm => by
    rcases List.mem_cons.mp hm with h | h
    · rw [h]
    · exact newRows_sid sid rest (base + 1) m h

theorem newRows_order_gt (sid : String) :
    ∀ (msgs : List (String × String)) (base : Nat) (m : DbMessage),
      m ∈ newRowsFrom sid base msgs → base < m.message_order
  | [], _, _, hm => absurd hm (List.not_mem_nil _)
  | p :: rest, base, m, hm => by
    rcases List.mem_cons.mp hm with h | h
    · rw [h]
      exact Nat.lt_succ_self base
    · exact Nat.lt_of_succ_lt (newRows_order_gt sid rest (base + 1) m h)

theorem newRows_sorted (sid : String) :
    ∀ (msgs : List (String × String)) (base : Nat),
      List.Sorted byOrder (newRowsFrom sid base msgs)
  | [], _ => List.sorted_nil
  | p :: rest, base => by
    refine List.Pairwise.cons ?_ (newRows_sorted sid rest (base + 1))
    intro m hm
    exact Nat.le_of_lt (newRows_order_gt sid rest (base + 1) m hm)

theorem newRows_roleContent (sid : String) :
    ∀ (msgs : List (String × String)) (base : Nat),
      (newRowsFrom sid base msgs).map (fun m => StateMessage.mk m.role m.content)
        = msgs.map (fun p => StateMessage.mk p.1 p.2)
  | [], _ => rfl
  | p :: rest, base => by
    simp only [newRowsFrom, List.map_cons]
    rw [newRows_roleContent sid rest (base + 1)]

theorem newRows_orders (sid : String) :
    ∀ (msgs : List (String × String)) (base : Nat),
      (newRowsFrom sid base msgs).map (fun m => m.message_order)
        = List.range' (base + 1) msgs.length
  | [], _ => rfl
  | p :: rest, base => by
    simp only [newRowsFrom, List.map_cons, List.length_cons]
    rw [newRows_orders sid rest (base + 1)]
    rfl

theorem sessionMessages_newRows (sid : String) (msgs : List (String × String)) (base : Nat) :
    sessionMessages (newRowsFrom sid base msgs) sid = newRowsFrom sid base msgs := by
  apply List.filter_eq_self.mpr
  intro m hm
  exact decide_eq_true (newRows_sid sid msgs base m hm)

theorem get_messages_of_sorted (rows : List DbMessage) (sid : String)
    (h : List.Sorted byOrder (sessionMessages rows sid)) :
    get_messages_by_session rows sid = sessionMessages rows sid :=
  h.insertionSort_eq

theorem exists_getSession_upsert (sessions : List SessionRow) (sid status : String) :
    ∃ row, (upsertSession sessions sid status).find?
        (fun r => decide (r.session_id = sid)) = some row := by
  have hmem : ∃ x ∈ upsertSession sessions sid status, decide (x.session_id = sid) = true := by
    unfold upsertSession
    by_cases h : (sessions.find? (fun r => decide (r.session_id = sid))).isSome
    · rw [if_pos h]
      obtain ⟨r0, hr0⟩ := Option.isSome_iff_exists.mp h
      have hr0mem : r0 ∈ sessions := List.mem_of_find?_eq_some hr0
      have hp := List.find?_some hr0
      have hr0sid : r0.session_id = sid := of_decide_eq_true hp
      refine ⟨if r0.session_id = sid then ⟨sid, some status⟩ else r0, ?_, ?_⟩
      · exact List.mem_map_of_mem _ hr0mem
      · rw [if_pos hr0sid]
        exact decide_eq_true rfl
    · rw [if_neg h]
      exact ⟨⟨sid, some status⟩, List.mem_append_right _ (List.mem_singleton.mpr rfl),
        decide_eq_true rfl⟩
  have hsome : ((upsertSession sessions sid status).find?
      (fun r => decide (r.session_id = sid))).isSome := by
    rw [List.find?_isSome]
    exact hmem
  exact Option.isSome_iff_exists.mp hsome

/-! ## Claim C3 -/

/-- C3: Under the durable-store invariant that the session's rows (in
table order) are sorted by `message_order` and persist, by role and
content, a prefix of the state's messages, a save appends exactly the
messages beyond the previously persisted count, in order, and a load
reconstructed purely from the durable store yields a message list equal
by role, content and order to the state just saved. -/
theorem C3_write_through_consistency :
    ∀ (db : DurableDB) (sid : String) (st : AgentStateView),
      List.Sorted byOrder (sessionMessages db.messages sid) →
      (sessionMessages db.messages sid).map (fun m => StateMessage.mk m.role m.content)
        = st.messages.take (sessionMessages db.messages sid).length →
      (sessionMessages db.messages sid).length ≤ st.messages.length →
      ((persist_agent_state db sid st).messages
          = db.messages
            ++ newRowsFrom sid (maxOrder db.messages sid)
                ((st.messages.drop (sessionMessages db.messages sid).length).map
                  (fun m => (m.role, m.content))))
      ∧ ∃ st' : AgentStateView,
          load_agent_state (persist_agent_state db sid st) sid = some st'
            ∧ st'.messages = st.messages := by
  intro db sid st hsorted hpre hlen
  have hget : get_messages_by_session db.messages sid = sessionMessages db.messages sid :=
    get_messages_of_sorted db.messages sid hsorted
  set k := (sessionMessages db.messages sid).length with hk
  set pairs := (st.messages.drop k).map (fun m => (m.role, m.content)) with hpairs
  set newR := newRowsFrom sid (maxOrder db.messages sid) pairs with hnewR
  have hmsgs : (persist_agent_state db sid st).messages = db.messages ++ newR := by
    show addAllMessages db.messages sid
        ((st.messages.drop (get_messages_by_session db.messages sid).length).map
          (fun m => (m.role, m.content))) = db.messages ++ newR
    rw [hget]
    exact addAll_eq_append sid pairs db.messages
  refine ⟨hmsgs, ?_⟩
  obtain ⟨row, hrow⟩ := exists_getSession_upsert db.sessions sid st.status
  have hsess : getSession (persist_agent_state db sid st) sid = some row := hrow
  have hfilter : sessionMessages (persist_agent_state db sid st).messages sid
      = sessionMessages db.messages sid ++ newR := by
    rw [hmsgs, sessionMessages_append, hnewR, sessionMessages_newRows]
  have hsorted2 :
      List.Sorted byOrder (sessionMessages (persist_agent_state db sid st).messages sid) := by
    rw [hfilter]
    refine List.pairwise_append.mpr ⟨hsorted, ?_, ?_⟩
    · rw [hnewR]
      exact newRows_sorted sid pairs _
    · intro a ha b hb
      rw [hnewR] at hb
      have h1 : a.message_order ≤ maxOrder db.messages sid :=
        mem_order_le_maxOrder db.messages sid a ha
      have h2 : maxOrder db.messages sid < b.message_order :=
        newRows_order_gt sid pairs _ b hb
      exact le_trans h1 (Nat.le_of_lt h2)
  have hget2 : get_messages_by_session (persist_agent_state db sid st).messages sid
      = sessionMessages db.messages sid ++ newR := by
    rw [get_messages_of_sorted _ _ hsorted2, hfilter]
  refine ⟨⟨sid, st.messages, statusFromRow row.conversation_status⟩, ?_, rfl⟩
  unfold load_agent_state
  rw [hsess]
  have hmap : (get_messages_by_session (persist_agent_state db sid st).messages sid).map
      (fun m => StateMessage.mk m.role m.content) = st.messages := by
    rw [hget2, List.map_append]
    have hdrop : newR.map (fun m => StateMessage.mk m.role m.content)
        = st.messages.drop k := by
      rw [hnewR, newRows_roleContent, hpairs, List.map_map]
      have hcomp : ((fun p : String × String => StateMessage.mk p.1 p.2) ∘
          (fun m : StateMessage => (m.role, m.content))) = id := by
        funext m
        rfl
      rw [hcomp, List.map_id]
    rw [hpre, hdrop, List.take_append_drop]
  rw [hmap]

/-- Witness for C3: saving a two-message state into an empty durable
store and loading it back purely from the store. -/
theorem C3_write_through_consistency_witness :
    ∃ st' : AgentStateView,
      load_agent_state
          (persist_agent_state ⟨[], []⟩ "s1"
            ⟨"s1", [⟨"user", "hi"⟩, ⟨"assistant", "hello"⟩], "idle"⟩) "s1"
        = some st'
      ∧ st'.messages
          = (⟨"s1", [⟨"user", "hi"⟩, ⟨"assistant", "hello"⟩], "idle"⟩ :
              AgentStateView).messages :=
  (C3_write_through_consistency ⟨[], []⟩ "s1"
    ⟨"s1", [⟨"user", "hi"⟩, ⟨"assistant", "hello"⟩], "idle"⟩
    List.sorted_nil rfl (by decide)).2

/-! ## Claim C4 -/

/-- C4: Sequentially appending N messages to a session with no prior
rows assigns the gapless, repeat-free order values 1..N (`range' 1 N`);
each single append inserts a row whose order is the session's current
maximum plus one, and that value is strictly greater than every order
already present in the session, so an assigned order is never reused. -/
theorem C4_message_order_invariant :
    (∀ (rows : List DbMessage) (sid : String) (msgs : List (String × String)),
        sessionMessages rows sid = [] →
        (sessionMessages (addAllMessages rows sid msgs) sid).map
            (fun m => m.message_order)
          = List.range' 1 msgs.length)
    ∧ (∀ (rows : List DbMessage) (sid role content : String),
        add_message rows sid role content
          = rows ++ [⟨sid, role, content, maxOrder rows sid + 1⟩])
    ∧ (∀ (rows : List DbMessage) (sid : String) (m : DbMessage),
        m ∈ sessionMessages rows sid → m.message_order < maxOrder rows sid + 1) := by
  refine ⟨?_, fun rows sid role content => rfl, ?_⟩
  · intro rows sid msgs h
    have hbase : maxOrder rows sid = 0 := by
      unfold maxOrder
      rw [h]
      rfl
    rw [addAll_eq_append, sessionMessages_append, h, hbase, sessionMessages_newRows,
      List.nil_append]
    exact newRows_orders sid msgs 0
  · intro rows sid m hm
    exact Nat.lt_succ_of_le (mem_order_le_maxOrder rows sid m hm)

/-- Witness for C4: two appends into an empty session yield orders
`[1, 2]`, and the order a third append would assign is strictly above
the existing ones. -/
theorem C4_message_order_invariant_witness :
    (sessionMessages (addAllMessages [] "s" [("user", "a"), ("assistant", "b")]) "s").map
        (fun m => m.message_order)
      = List.range' 1 ([("user", "a"), ("assistant", "b")] : List (String × String)).length
    ∧ (⟨"s", "user", "a", 1⟩ : DbMessage).message_order
        < maxOrder [⟨"s", "user", "a", 1⟩] "s" + 1 :=
  ⟨C4_message_order_invariant.1 [] "s" [("user", "a"), ("assistant", "b")] rfl,
   C4_message_order_invariant.2.2 [⟨"s", "user", "a", 1⟩] "s" ⟨"s", "user", "a", 1⟩
     (by decide)⟩

/-! ## Claim C7 -/

/-- C7: On load, the fast store is consulted first and a valid cached
state is returned as-is; a cached value that fails to deserialize is a
hard error, not a fallback to the durable store; on a cache miss the
state is reconstructed from the durable store and re-cached before being
returned; a missing session row yields the explicit NotFound error, and
that is the only way the durable-store reconstruction comes back empty. -/
theorem C7_load_semantics (cache : Option CachedVal) (db : DurableDB) (sid : String) :
    (∀ st, cache = some (CachedVal.good st) →
      get_agent_state cache db sid = Except.ok (st, cache))
    ∧ (cache = some CachedVal.corrupt →
      get_agent_state cache db sid = Except.error LoadErr.corruptCache)
    ∧ (cache = none → ∀ st, load_agent_state db sid = some st →
      get_agent_state cache db sid = Except.ok (st, some (CachedVal.good st)))
    ∧ (cache = none → getSession db sid = none →
      get_agent_state cache db sid = Except.error LoadErr.notFound)
    ∧ (load_agent_state db sid = none ↔ getSession db sid = none) := by
  refine ⟨?_, ?_, ?_, ?_, ?_⟩
  · intro st h
    subst h
    rfl
  · intro h
    subst h
    rfl
  · intro h st hload
    subst h
    unfold get_agent_state
    rw [hload]
  · intro h hsess
    subst h
    unfold get_agent_state load_agent_state
    rw [hsess]
  · unfold load_agent_state
    cases h : getSession db sid with
    | none => simp
    | some sess => simp

/-- Witness for C7 on a one-session durable store: cache hit, corrupt
cache, cache miss with reconstruction and cache-fill, and missing
session. -/
theorem C7_load_semantics_witness :
    get_agent_state (some (CachedVal.good ⟨"s1", [], "idle"⟩)) ⟨[], []⟩ "s1"
        = Except.ok (⟨"s1", [], "idle"⟩, some (CachedVal.good ⟨"s1", [], "idle"⟩))
    ∧ get_agent_state (some CachedVal.corrupt)
        ⟨[⟨"s1", some "idle"⟩], [⟨"s1", "user", "hi", 1⟩]⟩ "s1"
        = Except.error LoadErr.corruptCache
    ∧ get_agent_state none ⟨[⟨"s1", some "idle"⟩], [⟨"s1", "user", "hi", 1⟩]⟩ "s1"
        = Except.ok (⟨"s1", [⟨"user", "hi"⟩], "idle"⟩,
            some (CachedVal.good ⟨"s1", [⟨"user", "hi"⟩], "idle"⟩))
    ∧ get_agent_state none ⟨[], []⟩ "s1" = Except.error LoadErr.notFound :=
  ⟨(C7_load_semantics _ ⟨[], []⟩ "s1").1 ⟨"s1", [], "idle"⟩ rfl,
   (C7_load_semantics _ ⟨[⟨"s1", some "idle"⟩], [⟨"s1", "user", "hi", 1⟩]⟩ "s1").2.1 rfl,
   (C7_load_semantics none ⟨[⟨"s1", some "idle"⟩], [⟨"s1", "user", "hi", 1⟩]⟩ "s1").2.2.1
     rfl ⟨"s1", [⟨"user", "hi"⟩], "idle"⟩ (by decide),
   (C7_load_semantics none ⟨[], []⟩ "s1").2.2.2.1 rfl rfl⟩

/-! ## Context-index lemmas -/

theorem filterMap_filter_of_none {α β : Type} (p : α → Bool) (f : α → Option β)
    (h : ∀ a, p a = false → f a = none) :
    ∀ l : List α, (l.filter p).filterMap f = l.filterMap f := by
  intro l
  induction l with
  | nil => rfl
  | cons a t ih =>
    by_cases hp : p a = true
    · rw [List.filter_cons_of_pos hp, List.filterMap_cons, List.filterMap_cons, ih]
    · have hp' : p a = false := Bool.eq_false_iff.mpr hp
      rw [List.filter_cons_of_neg (by simp [hp']), List.filterMap_cons, h a hp', ih]

theorem scoreRecord_none_of_invalid (q : List ℝ) (r : ContextRecord)
    (h : hasValidEmbedding r = false) : scoreRecord q r = none := by
  unfold scoreRecord
  cases hemb : r.embedding with
  | none => rfl
  | some l =>
    cases l with
    | nil => rfl
    | cons a t =>
      exfalso
      unfold hasValidEmbedding at h
      rw [hemb] at h
      exact Bool.noConfusion h

theorem scoredItems_filter_valid (records : List ContextRecord) (sid : String)
    (q : List ℝ) :
    scoredItems (records.filter hasValidEmbedding) sid q = scoredItems records sid q := by
  unfold scoredItems sessionRecords
  rw [List.filter_comm]
  exact filterMap_filter_of_none hasValidEmbedding (scoreRecord q)
    (fun r hr => scoreRecord_none_of_invalid q r hr) _

/-! ## Claim C8 -/

/-- C8: A semantic query returns items sorted by descending cosine
similarity, every returned item scores at or above the threshold, the
result is the threshold-passing records truncated to the limit, each
returned item is the cosine-scored image of one of the session's
records with a valid embedding, a zero-norm vector scores similarity 0,
and without query text the session's records are returned in creation
order up to the limit with default relevance 1.0. -/
theorem C8_similarity_query :
    (∀ (records : List ContextRecord) (sid : String) (q : List ℝ) (θ : ℝ) (lim : Nat),
        List.Sorted byScoreDesc (search_context_similarity records sid q θ lim))
    ∧ (∀ (records : List ContextRecord) (sid : String) (q : List ℝ) (θ : ℝ) (lim : Nat)
        (it : ContextItem), it ∈ search_context_similarity records sid q θ lim →
        θ ≤ it.relevance_score)
    ∧ (∀ (records : List ContextRecord) (sid : String) (q : List ℝ) (θ : ℝ) (lim : Nat),
        (search_context_similarity records sid q θ lim).length
          = min lim ((scoredItems records sid q).filter
              (fun it => decide (θ ≤ it.relevance_score))).length)
    ∧ (∀ (records : List ContextRecord) (sid : String) (q : List ℝ) (θ : ℝ) (lim : Nat)
        (it : ContextItem), it ∈ search_context_similarity records sid q θ lim →
        ∃ r ∈ records, r.session_id = sid ∧ it.content = r.content
          ∧ ∃ emb, r.embedding = some emb ∧ emb ≠ []
              ∧ it.relevance_score = cosine_similarity q emb)
    ∧ (∀ (q emb : List ℝ), vecNorm emb = 0 → cosine_similarity q emb = 0)
    ∧ (∀ (records : List ContextRecord) (sid : String) (lim : Nat) (it : ContextItem),
        it ∈ retrieve_context_noquery records sid lim → it.relevance_score = 1)
    ∧ (∀ (records : List ContextRecord) (sid : String) (lim : Nat),
        (retrieve_context_noquery records sid lim).map (fun it => it.content)
          = ((sessionRecords records sid).take lim).map (fun r => r.content))
    ∧ (∀ (records : List ContextRecord) (sid : String) (lim : Nat),
        (retrieve_context_noquery records sid lim).length ≤ lim) := by
  have hmem_sort : ∀ (records : List ContextRecord) (sid : String) (q : List ℝ)
      (θ : ℝ) (lim : Nat) (it : ContextItem),
      it ∈ search_context_similarity records sid q θ lim →
      it ∈ (scoredItems records sid q).filter
        (fun x => decide (θ ≤ x.relevance_score)) := by
    intro records sid q θ lim it hit
    unfold search_context_similarity at hit
    exact (List.mem_insertionSort byScoreDesc).mp (List.mem_of_mem_take hit)
  refine ⟨?_, ?_, ?_, ?_, ?_, ?_, ?_, ?_⟩
  · intro records sid q θ lim
    unfold search_context_similarity
    exact List.Pairwise.sublist (List.take_sublist lim _)
      (List.sorted_insertionSort byScoreDesc _)
  · intro records sid q θ lim it hit
    have h := (List.mem_filter.mp (hmem_sort records sid q θ lim it hit)).2
    exact of_decide_eq_true h
  · intro records sid q θ lim
    unfold search_context_similarity
    rw [List.length_take]
    rw [(List.perm_insertionSort byScoreDesc _).length_eq]
  · intro records sid q θ lim it hit
    have h := (List.mem_filter.mp (hmem_sort records sid q θ lim it hit)).1
    unfold scoredItems at h
    obtain ⟨r, hr, hscore⟩ := List.mem_filterMap.mp h
    have hrmem := List.mem_filter.mp hr
    refine ⟨r, hrmem.1, of_decide_eq_true hrmem.2, ?_⟩
    unfold scoreRecord at hscore
    cases hemb : r.embedding with
    | none =>
      rw [hemb] at hscore
      cases hscore
    | some l =>
      cases l with
      | nil =>
        rw [hemb] at hscore
        cases hscore
      | cons a t =>
        rw [hemb] at hscore
        have hit' := Option.some_injective _ hscore
        refine ⟨by rw [← hit'], a :: t, rfl, List.cons_ne_nil a t, by rw [← hit']⟩
  · intro q emb h
    unfold cosine_similarity
    rw [if_pos (Or.inr h)]
  · intro records sid lim it hit
    obtain ⟨r, _, hr⟩ := List.mem_map.mp hit
    rw [← hr]
  · intro records sid lim
    unfold retrieve_context_noquery
    rw [List.map_map]
    rfl
  · intro records sid lim
    unfold retrieve_context_noquery
    rw [List.length_map, List.length_take]
    exact min_le_left _ _

/-- Witness for C8: the zero-norm rule at a concrete embedding, the
length equation for a concrete query, and the no-query path on a
concrete one-record store. -/
theorem C8_similarity_query_witness :
    cosine_similarity [1, 0] [0, 0] = 0
    ∧ (search_context_similarity [] "s" [1] (1 / 10) 5).length
        = min 5 (((scoredItems [] "s" [1]).filter
            (fun it => decide ((1 / 10 : ℝ) ≤ it.relevance_score))).length)
    ∧ (retrieve_context_noquery [⟨"s", "k", "c", none, []⟩] "s" 5).map
        (fun it => it.content)
      = ((sessionRecords [⟨"s", "k", "c", none, []⟩] "s").take 5).map
          (fun r => r.content) :=
  ⟨C8_similarity_query.2.2.2.2.1 [1, 0] [0, 0]
      (by simp [vecNorm]),
   C8_similarity_query.2.2.1 [] "s" [1] (1 / 10) 5,
   C8_similarity_query.2.2.2.2.2.2.1 [⟨"s", "k", "c", none, []⟩] "s" 5⟩

/-! ## Claim C9 -/

/-- C9: Records with missing, unparseable or empty embeddings never
participate in similarity ranking — the query result is unchanged when
they are removed, so none is scored with a zero or placeholder vector —
and ingestion never substitutes an all-zeros embedding: a provider
failure or a dimension mismatch makes `create_context_embedding` fail
loudly, while success stores exactly the provider's vector. -/
theorem C9_no_zero_placeholder :
    (∀ (records : List ContextRecord) (sid : String) (q : List ℝ) (θ : ℝ) (lim : Nat),
        search_context_similarity records sid q θ lim
          = search_context_similarity (records.filter hasValidEmbedding) sid q θ lim)
    ∧ (∀ (records : List ContextRecord) (sid key content : String)
        (meta : List (String × String)) (e : String),
        create_context_embedding records sid key content meta (Except.error e)
          = Except.error ("Error generating embedding: " ++ e))
    ∧ (∀ (records : List ContextRecord) (sid key content : String)
        (meta : List (String × String)) (v : List ℝ),
        v.length = 768 →
        create_context_embedding records sid key content meta (Except.ok v)
          = Except.ok (records ++ [⟨sid, key, content, some v, meta⟩]))
    ∧ (∀ (records : List ContextRecord) (sid key content : String)
        (meta : List (String × String)) (v : List ℝ),
        v.length ≠ 768 →
        create_context_embedding records sid key content meta (Except.ok v)
          = Except.error "Error generating embedding: Embedding dimensions mismatch") := by
  refine ⟨?_, ?_, ?_, ?_⟩
  · intro records sid q θ lim
    unfold search_context_similarity
    rw [scoredItems_filter_valid]
  · intro records sid key content meta e
    rfl
  · intro records sid key content meta v hv
    have hgen : generate_embedding (Except.ok v) = Except.ok v := by
      unfold generate_embedding
      simp [hv]
    unfold create_context_embedding
    rw [hgen]
  · intro records sid key content meta v hv
    have hgen : generate_embedding (Except.ok v)
        = Except.error "Error generating embedding: Embedding dimensions mismatch" := by
      unfold generate_embedding
      simp [hv]
    unfold create_context_embedding
    rw [hgen]

/-- Witness for C9: a provider failure is a loud error and a
768-dimension provider result is stored verbatim. -/
theorem C9_no_zero_placeholder_witness :
    create_context_embedding [] "s" "k" "text" [] (Except.error "provider down")
        = Except.error "Error generating embedding: provider down"
    ∧ create_context_embedding [] "s" "k" "text" []
          (Except.ok (List.replicate 768 (1 : ℝ)))
        = Except.ok [⟨"s", "k", "text", some (List.replicate 768 (1 : ℝ)), []⟩] :=
  ⟨C9_no_zero_placeholder.2.1 [] "s" "k" "text" [] "provider down",
   C9_no_zero_placeholder.2.2.1 [] "s" "k" "text" [] (List.replicate 768 (1 : ℝ))
     (List.length_replicate 768 (1 : ℝ))⟩

/-! ## Serialization lemmas -/

theorem roleFromString_value : ∀ r : SMessageRole, roleFromString r.value = some r := by
  intro r
  cases r <;> rfl

theorem statusFromStringLoose_value : ∀ st : SAgentStatus,
    statusFromStringLoose st.value = st := by
  intro st
  cases st <;> rfl

theorem parseMessages_map {DT Meta : Type} (iso : DT → String)
    (parseDT : String → Option DT) (hinv : ∀ d, parseDT (iso d) = some d) :
    ∀ msgs : List (SMessage DT Meta),
      parseMessages parseDT (msgs.map (fun m =>
          (⟨m.role.value, m.content, iso m.timestamp, m.metadata⟩ : SMessageDict Meta)))
        = some msgs
  | [] => rfl
  | m :: t => by
    simp only [List.map_cons, parseMessages]
    rw [roleFromString_value m.role, hinv m.timestamp,
      parseMessages_map iso parseDT hinv t]
    rfl

/-! ## Claim C10 -/

/-- C10: For every AgentState whose fields are representable (roles and
status are enum members, timestamps round-trip through the datetime
codec as Python's `fromisoformat ∘ isoformat` does),
`from_dict (to_dict s)` reconstructs the state exactly: session id,
messages (role, content, timestamp, metadata), context, status and both
timestamps — the fast-store snapshot serialization is lossless. -/
theorem C10_snapshot_roundtrip :
    ∀ (DT Meta Ctx : Type) (iso : DT → String) (parseDT : String → Option DT),
      (∀ d, parseDT (iso d) = some d) →
      ∀ s : SAgentState DT Meta Ctx,
        agentState_from_dict parseDT (agentState_to_dict iso s) = some s := by
  intro DT Meta Ctx iso parseDT hinv s
  simp [agentState_from_dict, agentState_to_dict, parseMessages_map iso parseDT hinv,
    hinv, statusFromStringLoose_value]

/-- Witness for C10 with a concrete invertible datetime codec (unary
encoding) and a concrete one-message state. -/
theorem C10_snapshot_roundtrip_witness :
    agentState_from_dict (fun s => some s.data.length)
        (agentState_to_dict (fun n => String.mk (List.replicate n 'a'))
          (⟨"s1", [⟨SMessageRole.user, "hi", 5, none⟩], (), SAgentStatus.idle, 0, 7⟩ :
            SAgentState Nat Unit Unit))
      = some ⟨"s1", [⟨SMessageRole.user, "hi", 5, none⟩], (), SAgentStatus.idle, 0, 7⟩ :=
  C10_snapshot_roundtrip Nat Unit Unit (fun n => String.mk (List.replicate n 'a'))
    (fun s => some s.data.length) (fun d => by simp)
    ⟨"s1", [⟨SMessageRole.user, "hi", 5, none⟩], (), SAgentStatus.idle, 0, 7⟩

end AgentSpec
